import Mathlib

/-!
Verification development for the UART FIFO probing module (`uart_probe.c`).

The four probe entry points (`rx_trig_probe_read`, `rx_fifo_size_read`,
`tx_fifo_size_read`, `tx_trig_probe_read`) interact with the serial device
only through `serial_in(port, reg)` and `serial_out(port, reg, byte)`,
through the shadow FIFO-control byte `u8250p->fcr`, and through the static
`port->fifosize`.  We embed each probe as a pure function over an abstract
device: the device is a deterministic oracle whose read results may depend
on the entire history of register accesses performed so far.  Every
deterministic mock handle is captured by such an oracle.

The history records every register access (reads and writes, most recent
first), so frame conditions ("which registers were written, in which
order") are directly expressible.  The unbounded `while (LSR & DR)` drain
loops of the C source are given a fuel parameter; returning `none` means
the loop was still running after `fuel` iterations, and divergence on a
device is the statement that this holds for every fuel.  The deadline
loops (`jiffies`-bounded polling) are modelled by a fuel parameter giving
the number of poll iterations that fit before the deadline; exhausting it
is the genuine timeout behaviour of the code.  The uninitialised C locals
`rx_count` (in `tx_fifo_size_read`) and `trig` (in `tx_trig_probe_read`)
are modelled as explicit parameters carrying the indeterminate stack
value.
-/

/-- Symbolic UART register identifiers, as named in the source. `tx`/`rx`
are the transmit holding and receive buffer registers. -/
inductive Reg where
  | rx | tx | ier | iir | fcr | lcr | mcr | lsr | dll | dlm
deriving DecidableEq

/-- One register access: a read or a write of a value. -/
inductive Ev where
  | rd (r : Reg)
  | wr (r : Reg) (v : Nat)
deriving DecidableEq

/-- Access history, most recent event first. -/
abbrev History := List Ev

/-- A deterministic mock device: the value returned by a register read may
depend on the whole access history so far. -/
structure Dev where
  readv : History → Reg → Nat

/-- `serial_in`: read a register, recording the access. -/
def serialIn (d : Dev) (h : History) (r : Reg) : Nat × History :=
  (d.readv h r, Ev.rd r :: h)

/-- `serial_out`: write a register, recording the access. -/
def serialOut (h : History) (r : Reg) (v : Nat) : History :=
  Ev.wr r v :: h

/-- Number of bytes written to the transmit register in a history. -/
def txCount (h : History) : Nat :=
  h.countP fun e => match e with
    | Ev.wr Reg.tx _ => true
    | _ => false

/-- Number of reads of the receive buffer register in a history. -/
def rxReads (h : History) : Nat :=
  h.countP fun e => match e with
    | Ev.rd Reg.rx => true
    | _ => false

/-- Value of the most recent write to a register, if any. -/
def lastWrite : History → Reg → Option Nat
  | [], _ => none
  | Ev.wr r v :: t, q => if r = q then some v else lastWrite t q
  | Ev.rd _ :: t, q => lastWrite t q

/-- All values written to the FIFO control register, in chronological order. -/
def fcrWrites (h : History) : List Nat :=
  h.reverse.filterMap fun e => match e with
    | Ev.wr Reg.fcr v => some v
    | _ => none

/-- All accesses touching the interrupt enable register, most recent first. -/
def ierEvs (h : History) : List Ev :=
  h.filter fun e => match e with
    | Ev.rd Reg.ier => true
    | Ev.wr Reg.ier _ => true
    | _ => false

/-! ### Register constants from `include/uapi/linux/serial_reg.h` -/

def UART_FCR_ENABLE_FIFO : Nat := 0x01
def UART_FCR_CLEAR_RCVR : Nat := 0x02
def UART_FCR_CLEAR_XMIT : Nat := 0x04
def UART_FCR_TRIGGER_1 : Nat := 0x00
def UART_MCR_LOOP : Nat := 0x10
def UART_LCR_CONF_MODE_A : Nat := 0x80
def UART_LCR_WLEN8 : Nat := 0x03
def UART_IER_RDI : Nat := 0x01
def UART_IER_THRI : Nat := 0x02
def UART_IIR_NO_INT : Nat := 0x01
def UART_IIR_RDI : Nat := 0x04
def UART_IIR_THRI : Nat := 0x02
def UART_LSR_DR : Nat := 0x01
def UART_LSR_OE : Nat := 0x02

/-- Upper byte-count bound `FIFO_SIZE_MAX` used by the FIFO size probes. -/
def FIFO_SIZE_MAX : Nat := 512

/-! ### Outcome of a probe -/

/-- Errno values returned before any hardware access. -/
inductive Errno where
  | enodev
  | ebusy
deriving DecidableEq

/-- A probe result: an integer byte count, one of the three sentinel
messages, or an errno from the resolution phase. -/
inductive PRes where
  | num (n : Int)
  | rxTrigFail
  | overflowNotDetected
  | txLoopbackFail
  | err (e : Errno)
deriving DecidableEq

/-- Outcome of resolving the selected device name, mirroring the checks at
the top of every probe: `tty_find_polling_driver` failure, missing
`tty_port`, missing port ops, failed `up_to_u8250p`, or busy port. -/
inductive Resolve where
  | noDriver
  | noPort
  | noOps
  | not8250
  | busy
  | ok
deriving DecidableEq

/-- Errno produced by a failing resolution outcome. -/
def resolveErr : Resolve → Option Errno
  | Resolve.noDriver => some Errno.enodev
  | Resolve.noPort => some Errno.enodev
  | Resolve.noOps => some Errno.enodev
  | Resolve.not8250 => some Errno.enodev
  | Resolve.busy => some Errno.ebusy
  | Resolve.ok => none

/-! ### Register snapshot and restore sequence -/

/-- The snapshot captured before a probe: line control, shadow FIFO
control, modem control and the 16-bit divisor latch. -/
structure Snap where
  lcr : Nat
  fcr : Nat
  mcr : Nat
  dl : Nat
deriving DecidableEq

instance : Inhabited Snap := ⟨⟨0, 0, 0, 0⟩⟩

/-- The common restore epilogue: FIFO control, modem control, line control
to configuration mode, divisor low, divisor high, original line control
last. -/
def restoreRegs (h : History) (fcr0 mcr0 dl0 lcr0 : Nat) : History :=
  let h1 := serialOut h Reg.fcr fcr0
  let h2 := serialOut h1 Reg.mcr mcr0
  let h3 := serialOut h2 Reg.lcr UART_LCR_CONF_MODE_A
  let h4 := serialOut h3 Reg.dll (dl0 &&& 0xff)
  let h5 := serialOut h4 Reg.dlm (dl0 >>> 8)
  serialOut h5 Reg.lcr lcr0

/-- The six restore events, most recent first. -/
def restoreEvents (s : Snap) : List Ev :=
  [Ev.wr Reg.lcr s.lcr, Ev.wr Reg.dlm (s.dl >>> 8), Ev.wr Reg.dll (s.dl &&& 0xff),
   Ev.wr Reg.lcr UART_LCR_CONF_MODE_A, Ev.wr Reg.mcr s.mcr, Ev.wr Reg.fcr s.fcr]

/-- A history ends with the six restore writes in the fixed order, and the
final recorded value of every snapshotted register equals the snapshot
(with the divisor bytes recombining to the snapshotted 16-bit divisor). -/
def restoredTo (s : Snap) (h : History) : Prop :=
  h.take 6 = restoreEvents s ∧
  lastWrite h Reg.fcr = some s.fcr ∧
  lastWrite h Reg.mcr = some s.mcr ∧
  lastWrite h Reg.lcr = some s.lcr ∧
  lastWrite h Reg.dll = some (s.dl &&& 0xff) ∧
  lastWrite h Reg.dlm = some (s.dl >>> 8) ∧
  ((s.dl &&& 0xff) ||| ((s.dl >>> 8) <<< 8)) = s.dl

/-! ### The unbounded RX drain loop -/

/-- The data-ready test applied to an LSR byte: `lsr & UART_LSR_DR`. -/
def drCond (v : Nat) : Prop :=
  v &&& UART_LSR_DR ≠ 0

instance (v : Nat) : Decidable (drCond v) :=
  inferInstanceAs (Decidable (¬ _ = _))

/-- `while (serial_in(LSR) & UART_LSR_DR) serial_in(RX);` with fuel:
`none` means the loop was still running after `fuel` iterations. -/
def drainRx (d : Dev) : Nat → History → Option History
  | 0, _ => none
  | fuel + 1, h =>
    let p := serialIn d h Reg.lsr
    if drCond (p.1 % 256) then
      drainRx d fuel (serialIn d p.2 Reg.rx).2
    else
      some p.2

/-! ### RX trigger probe (`rx_trig_probe_read`) -/

/-- Setup of the RX trigger probe: snapshot, FIFO clear (note: the old
FCR is only OR-ed with the clear bits), loopback, divisor 1, 8N1 frame,
RX interrupt enable. -/
def rxTrigSetup (d : Dev) (sh : Nat) : Snap × History :=
  let p1 := serialIn d [] Reg.lcr
  let lcr0 := p1.1 % 256
  let fcr0 := sh % 256
  let p2 := serialIn d p1.2 Reg.mcr
  let mcr0 := p2.1 % 256
  let h1 := serialOut p2.2 Reg.fcr (fcr0 ||| UART_FCR_CLEAR_RCVR ||| UART_FCR_CLEAR_XMIT)
  let h2 := serialOut h1 Reg.mcr (mcr0 ||| UART_MCR_LOOP)
  let h3 := serialOut h2 Reg.lcr UART_LCR_CONF_MODE_A
  let p3 := serialIn d h3 Reg.dll
  let p4 := serialIn d p3.2 Reg.dlm
  let dl0 := (p3.1 ||| (p4.1 <<< 8)) % 4294967296
  let h4 := serialOut p4.2 Reg.dll 1
  let h5 := serialOut h4 Reg.dlm 0
  let h6 := serialOut h5 Reg.lcr UART_LCR_WLEN8
  let h7 := serialOut h6 Reg.ier UART_IER_RDI
  (⟨lcr0, fcr0, mcr0, dl0⟩, h7)

/-- The receive-data-available test the RX trigger loop applies to an IIR
byte: `!(iir & 0x01) && ((iir & 0x0E) == UART_IIR_RDI)`. -/
def rdaCond (v : Nat) : Prop :=
  v &&& 0x01 = 0 ∧ v &&& 0x0E = UART_IIR_RDI

instance (v : Nat) : Decidable (rdaCond v) :=
  inferInstanceAs (Decidable (_ ∧ _))

/-- The measurement loop `for (trig = 1; trig < 256; trig++)`: transmit
one byte, read IIR, stop when it reports receive-data-available.  The
countdown `n` maintains `n + trig = 256`; on exhaustion `trig = 256`. -/
def rxTrigLoopAux (d : Dev) : Nat → Nat → History → Nat × History
  | 0, trig, h => (trig, h)
  | n + 1, trig, h =>
    let h1 := serialOut h Reg.tx 0x55
    let p := serialIn d h1 Reg.iir
    let iir := p.1 % 256
    if rdaCond iir then
      (trig, p.2)
    else
      rxTrigLoopAux d n (trig + 1) p.2

/-- Body of `rx_trig_probe_read` after successful resolution. Returns the
captured snapshot, the result and the final access history, or `none` if
the drain loop never exits within `fuel` iterations. -/
def rxTrigRun (d : Dev) (sh fuel : Nat) : Option (Snap × PRes × History) :=
  let s := rxTrigSetup d sh
  let p := rxTrigLoopAux d 255 1 s.2
  let h2 := serialOut p.2 Reg.ier 0x00
  (drainRx d fuel h2).map fun h3 =>
    (s.1,
     if 256 ≤ p.1 then PRes.rxTrigFail else PRes.num p.1,
     restoreRegs h3 s.1.fcr s.1.mcr s.1.dl s.1.lcr)

/-- Full `rx_trig_probe_read` including the resolution phase. -/
def rxTrigProbe (rv : Resolve) (d : Dev) (sh fuel : Nat) : Option (PRes × History) :=
  match rv with
  | Resolve.noDriver => some (PRes.err Errno.enodev, [])
  | Resolve.noPort => some (PRes.err Errno.enodev, [])
  | Resolve.noOps => some (PRes.err Errno.enodev, [])
  | Resolve.not8250 => some (PRes.err Errno.enodev, [])
  | Resolve.busy => some (PRes.err Errno.ebusy, [])
  | Resolve.ok => (rxTrigRun d sh fuel).map fun x => (x.2.1, x.2.2)

/-! ### RX FIFO size probe (`rx_fifo_size_read`) -/

/-- Common setup of the two FIFO size probes: snapshot, FIFO enabled and
cleared, loopback, divisor 1, 8N1 frame. -/
def fifoSetup (d : Dev) (sh : Nat) : Snap × History :=
  let p1 := serialIn d [] Reg.lcr
  let lcr0 := p1.1 % 256
  let fcr0 := sh % 256
  let p2 := serialIn d p1.2 Reg.mcr
  let mcr0 := p2.1 % 256
  let h1 := serialOut p2.2 Reg.fcr
    (UART_FCR_ENABLE_FIFO ||| UART_FCR_CLEAR_RCVR ||| UART_FCR_CLEAR_XMIT)
  let h2 := serialOut h1 Reg.mcr (mcr0 ||| UART_MCR_LOOP)
  let h3 := serialOut h2 Reg.lcr UART_LCR_CONF_MODE_A
  let p3 := serialIn d h3 Reg.dll
  let p4 := serialIn d p3.2 Reg.dlm
  let dl0 := (p3.1 ||| (p4.1 <<< 8)) % 4294967296
  let h4 := serialOut p4.2 Reg.dll 1
  let h5 := serialOut h4 Reg.dlm 0
  let h6 := serialOut h5 Reg.lcr UART_LCR_WLEN8
  (⟨lcr0, fcr0, mcr0, dl0⟩, h6)

/-- The overrun test applied to an LSR byte: `lsr & UART_LSR_OE`. -/
def oeCond (v : Nat) : Prop :=
  v &&& UART_LSR_OE ≠ 0

instance (v : Nat) : Decidable (oeCond v) :=
  inferInstanceAs (Decidable (¬ _ = _))

/-- The overrun-hunt loop `for (count_tx = 0; count_tx < 512; count_tx++)`:
transmit a byte, read LSR, record `count_tx` and stop on overrun.  On
exhaustion `rx_fifo_size` keeps its initial value `0`. -/
def rxFifoLoopAux (d : Dev) : Nat → Nat → History → Nat × History
  | 0, _, h => (0, h)
  | n + 1, c, h =>
    let h1 := serialOut h Reg.tx 0xff
    let p := serialIn d h1 Reg.lsr
    let lsr := p.1 % 256
    if oeCond lsr then
      (c, p.2)
    else
      rxFifoLoopAux d n (c + 1) p.2

/-- Body of `rx_fifo_size_read` after successful resolution.  This probe
has no drain loop or deadline, so it is total. -/
def rxFifoRun (d : Dev) (sh : Nat) : Snap × PRes × History :=
  let s := fifoSetup d sh
  let p := rxFifoLoopAux d FIFO_SIZE_MAX 0 s.2
  (s.1,
   if p.1 = 0 then PRes.overflowNotDetected else PRes.num p.1,
   restoreRegs p.2 s.1.fcr s.1.mcr s.1.dl s.1.lcr)

/-- Full `rx_fifo_size_read` including the resolution phase. -/
def rxFifoProbe (rv : Resolve) (d : Dev) (sh : Nat) : PRes × History :=
  match rv with
  | Resolve.noDriver => (PRes.err Errno.enodev, [])
  | Resolve.noPort => (PRes.err Errno.enodev, [])
  | Resolve.noOps => (PRes.err Errno.enodev, [])
  | Resolve.not8250 => (PRes.err Errno.enodev, [])
  | Resolve.busy => (PRes.err Errno.ebusy, [])
  | Resolve.ok => let r := rxFifoRun d sh; (r.2.1, r.2.2)

/-! ### TX FIFO size probe (`tx_fifo_size_read`) -/

/-- The fill loop: 512 writes of `0xFF`, counting `tx_count`. -/
def txFifoFillAux : Nat → Nat → History → Nat × History
  | 0, tc, h => (tc, h)
  | n + 1, tc, h => txFifoFillAux n (tc + 1) (serialOut h Reg.tx 0xFF)

/-- The deadline-bounded receive-count loop of `tx_fifo_size_read`.
`rc` models the C local `rx_count`, which the source never initialises;
it therefore starts from an arbitrary value. -/
def txFifoPollAux (d : Dev) (tc : Int) : Nat → Int → History → Int × History
  | 0, rc, h => (rc, h)
  | n + 1, rc, h =>
    if rc < tc then
      let p := serialIn d h Reg.lsr
      let lsr := p.1 % 256
      if lsr &&& UART_LSR_DR ≠ 0 then
        let q := serialIn d p.2 Reg.rx
        if q.1 % 256 = 0xFF then
          txFifoPollAux d tc n (rc + 1) q.2
        else
          txFifoPollAux d tc n rc q.2
      else
        txFifoPollAux d tc n rc p.2
    else
      (rc, h)

/-- Body of `tx_fifo_size_read` after successful resolution.  `rcInit` is
the indeterminate initial value of the uninitialised local `rx_count`;
`pollFuel` is the number of poll iterations before the 500 ms deadline. -/
def txFifoRun (d : Dev) (sh : Nat) (rcInit : Int) (pollFuel : Nat) :
    Snap × PRes × History :=
  let s := fifoSetup d sh
  let f := txFifoFillAux FIFO_SIZE_MAX 0 s.2
  let p := txFifoPollAux d (f.1 : Int) pollFuel rcInit f.2
  (s.1,
   if p.1 = 0 then PRes.txLoopbackFail else PRes.num p.1,
   restoreRegs p.2 s.1.fcr s.1.mcr s.1.dl s.1.lcr)

/-- Full `tx_fifo_size_read` including the resolution phase. -/
def txFifoProbe (rv : Resolve) (d : Dev) (sh : Nat) (rcInit : Int)
    (pollFuel : Nat) : PRes × History :=
  match rv with
  | Resolve.noDriver => (PRes.err Errno.enodev, [])
  | Resolve.noPort => (PRes.err Errno.enodev, [])
  | Resolve.noOps => (PRes.err Errno.enodev, [])
  | Resolve.not8250 => (PRes.err Errno.enodev, [])
  | Resolve.busy => (PRes.err Errno.ebusy, [])
  | Resolve.ok => let r := txFifoRun d sh rcInit pollFuel; (r.2.1, r.2.2)

/-! ### TX trigger probe (`tx_trig_probe_read`) -/

/-- The capped fill loop `for (int i = 0; i <= port->fifosize; i++)`:
`n` is instantiated with `fifosize + 1`. -/
def txTrigFill : Nat → History → History
  | 0, h => h
  | n + 1, h => txTrigFill n (serialOut h Reg.tx 0xFF)

/-- The THR-empty test the TX trigger loop applies to an IIR byte:
`!(iir & UART_IIR_NO_INT) && ((iir & 0x0E) == UART_IIR_THRI)`. -/
def thriCond (v : Nat) : Prop :=
  v &&& UART_IIR_NO_INT = 0 ∧ v &&& 0x0E = UART_IIR_THRI

instance (v : Nat) : Decidable (thriCond v) :=
  inferInstanceAs (Decidable (_ ∧ _))

/-- The deadline-bounded THR-empty hunt: each iteration optionally drains
one received byte, then reads IIR and stops with `some rx_count` when it
reports THR-empty; `none` on deadline exhaustion. -/
def txTrigPollAux (d : Dev) : Nat → Int → History → Option Int × History
  | 0, _, h => (none, h)
  | n + 1, rc, h =>
    let p := serialIn d h Reg.lsr
    let lsr := p.1 % 256
    let s := if drCond lsr then (rc + 1, (serialIn d p.2 Reg.rx).2)
             else (rc, p.2)
    let q := serialIn d s.2 Reg.iir
    let iir := q.1 % 256
    if thriCond iir then
      (some s.1, q.2)
    else
      txTrigPollAux d n s.1 q.2

/-- The locals captured by the TX trigger probe's opening phase, together
with the history at the point just before the first drain loop. -/
structure TxTrigPre where
  lcr0 : Nat
  fcr0 : Nat
  mcr0 : Nat
  ier0 : Nat
  h : History

/-- Opening phase of `tx_trig_probe_read`: read LCR, force LCR to 0, read
FCR, MCR and IER, write the FIFO enable/clear/trigger-1 value and the
loopback bit. -/
def txTrigPre (d : Dev) : TxTrigPre :=
  let p1 := serialIn d [] Reg.lcr
  let lcr0 := p1.1 % 256
  let h1 := serialOut p1.2 Reg.lcr 0x00
  let p2 := serialIn d h1 Reg.fcr
  let fcr0 := p2.1 % 256
  let p3 := serialIn d p2.2 Reg.mcr
  let mcr0 := p3.1 % 256
  let p4 := serialIn d p3.2 Reg.ier
  let ier0 := p4.1 % 256
  let h2 := serialOut p4.2 Reg.fcr
    (UART_FCR_ENABLE_FIFO ||| UART_FCR_CLEAR_RCVR ||| UART_FCR_CLEAR_XMIT |||
     UART_FCR_TRIGGER_1)
  let h3 := serialOut h2 Reg.mcr (mcr0 ||| UART_MCR_LOOP)
  ⟨lcr0, fcr0, mcr0, ier0, h3⟩

/-- Middle phase of `tx_trig_probe_read`, after the first drain: capture
the divisor under configuration mode, set divisor 1, 8N1 frame, enable
the THR-empty interrupt.  Returns the captured divisor and the history. -/
def txTrigMid (d : Dev) (h4 : History) : Nat × History :=
  let h5 := serialOut h4 Reg.lcr UART_LCR_CONF_MODE_A
  let p5 := serialIn d h5 Reg.dll
  let p6 := serialIn d p5.2 Reg.dlm
  let dl0 := (p5.1 ||| (p6.1 <<< 8)) % 4294967296
  let h6 := serialOut p6.2 Reg.dll 1
  let h7 := serialOut h6 Reg.dlm 0
  let h8 := serialOut h7 Reg.lcr UART_LCR_WLEN8
  let h9 := serialOut h8 Reg.ier UART_IER_THRI
  (dl0, h9)

/-- Body of `tx_trig_probe_read` after successful resolution.  `trigInit`
is the indeterminate initial value of the uninitialised local `trig`,
used when the poll loop times out; `pollFuel` is the number of poll
iterations before the 1.5 s deadline; `fuel` bounds the two unbounded
drain loops (`none` if either never exits). -/
def txTrigRun (d : Dev) (fifosize : Nat) (trigInit : Int) (pollFuel fuel : Nat) :
    Option (Snap × PRes × History) :=
  let pre := txTrigPre d
  (drainRx d fuel pre.h).bind fun h4 =>
    let mid := txTrigMid d h4
    let h10 := txTrigFill (fifosize + 1) mid.2
    let q := txTrigPollAux d pollFuel 0 h10
    let trig : Int := match q.1 with
      | some v => v
      | none => trigInit
    let h11 := serialOut q.2 Reg.ier pre.ier0
    (drainRx d fuel h11).map fun h12 =>
      (⟨pre.lcr0, pre.fcr0, pre.mcr0, mid.1⟩,
       if trig = 0 then PRes.txLoopbackFail else PRes.num trig,
       restoreRegs h12 pre.fcr0 pre.mcr0 mid.1 pre.lcr0)

/-- Full `tx_trig_probe_read` including the resolution phase. -/
def txTrigProbe (rv : Resolve) (d : Dev) (fifosize : Nat) (trigInit : Int)
    (pollFuel fuel : Nat) : Option (PRes × History) :=
  match rv with
  | Resolve.noDriver => some (PRes.err Errno.enodev, [])
  | Resolve.noPort => some (PRes.err Errno.enodev, [])
  | Resolve.noOps => some (PRes.err Errno.enodev, [])
  | Resolve.not8250 => some (PRes.err Errno.enodev, [])
  | Resolve.busy => some (PRes.err Errno.ebusy, [])
  | Resolve.ok => (txTrigRun d fifosize trigInit pollFuel fuel).map fun x => (x.2.1, x.2.2)

/-! ### Projections on probe outputs -/

/-- Snapshot component of an optional run output. -/
def runSnap (o : Option (Snap × PRes × History)) : Snap :=
  match o with
  | some x => x.1
  | none => default

/-- Result component of an optional run output. -/
def runResO (o : Option (Snap × PRes × History)) : Option PRes :=
  o.map fun x => x.2.1

/-- Trace component of an optional run output. -/
def runTrace (o : Option (Snap × PRes × History)) : History :=
  match o with
  | some x => x.2.2
  | none => []

/-! ### Concrete mock devices -/

/-- Device whose every read returns 0: no interrupt condition, no data
ready, no overrun. -/
def zeroDev : Dev := ⟨fun _ _ => 0⟩

/-- Device whose IIR always reports receive-data-available (value 4) and
whose other registers read 0. -/
def devIir4 : Dev := ⟨fun _ r => match r with
  | Reg.iir => 4
  | _ => 0⟩

/-- Device whose LSR always asserts the data-ready bit: the RX drain loops
never exit on it. -/
def stuckDRDev : Dev := ⟨fun _ r => match r with
  | Reg.lsr => 1
  | _ => 0⟩

/-- Device reporting receive-data-available exactly when one byte has been
transmitted, with data-ready permanently asserted. -/
def cexC3Dev : Dev := ⟨fun h r => match r with
  | Reg.iir => if txCount h = 1 then 4 else 0
  | Reg.lsr => 1
  | _ => 0⟩

/-- Device reporting receive-data-available exactly when two bytes have
been transmitted, with data-ready never asserted. -/
def witC3Dev : Dev := ⟨fun h r => match r with
  | Reg.iir => if txCount h = 2 then 4 else 0
  | _ => 0⟩

/-- Device whose LSR asserts overrun from the third transmitted byte on. -/
def cexC4Dev : Dev := ⟨fun h r => match r with
  | Reg.lsr => if 3 ≤ txCount h then 2 else 0
  | _ => 0⟩

/-- Loopback device echoing exactly three bytes: data-ready until three
receive reads have happened, each read returning the transmitted 0xFF. -/
def echoDev3 : Dev := ⟨fun h r => match r with
  | Reg.lsr => if rxReads h < 3 then 1 else 0
  | Reg.rx => 0xFF
  | _ => 0⟩

/-- Device asserting the THR-empty condition exactly when no byte has been
drained yet, and never asserting data-ready. -/
def cexC6Dev : Dev := ⟨fun h r => match r with
  | Reg.iir => if rxReads h = 0 then 2 else 0
  | _ => 0⟩

/-- Well-behaved loopback device for the TX trigger probe: data-ready
whenever fewer bytes have been read back than transmitted, receive reads
return 0xFF, and the THR-empty condition asserts exactly when one byte
has been drained. -/
def witC6Dev : Dev := ⟨fun h r => match r with
  | Reg.lsr => if rxReads h < txCount h then 1 else 0
  | Reg.rx => 0xFF
  | Reg.iir => if rxReads h = 1 then 2 else 0
  | _ => 0⟩

/-! ### Restore-sequence lemmas -/

/-- Recombining the restored divisor bytes gives back the snapshot value. -/
theorem lor_low_high (a : Nat) : (a &&& 0xff) ||| ((a >>> 8) <<< 8) = a := by
  apply Nat.eq_of_testBit_eq
  intro i
  have h255 : (0xff : Nat) = 2 ^ 8 - 1 := by norm_num
  simp only [Nat.testBit_or, Nat.testBit_and, h255, Nat.testBit_two_pow_sub_one,
    Nat.testBit_shiftLeft, Nat.testBit_shiftRight]
  by_cases hi : i < 8
  · have h8 : ¬ (8 ≤ i) := by omega
    simp [hi, h8]
  · have h8 : 8 ≤ i := by omega
    have hadd : 8 + (i - 8) = i := by omega
    simp [hi, h8, hadd]

/-- The restore epilogue establishes the full restoration property. -/
theorem restoredTo_restoreRegs (lcr0 fcr0 mcr0 dl0 : Nat) (h : History) :
    restoredTo ⟨lcr0, fcr0, mcr0, dl0⟩ (restoreRegs h fcr0 mcr0 dl0 lcr0) := by
  refine ⟨?_, ?_, ?_, ?_, ?_, ?_, lor_low_high dl0⟩ <;>
    simp [restoreRegs, serialOut, restoreEvents, lastWrite]

/-- C1: for every probe (RX trigger, RX FIFO size, TX FIFO size, TX
trigger) and every terminating outcome, the recorded register state at
probe exit equals the pre-probe snapshot, with the restore writes issued
in the fixed order FIFO control, modem control, line control to
configuration mode, divisor low, divisor high, original line control
last. -/
theorem c1_restore_invariant :
    (∀ (d : Dev) (sh fuel : Nat), (rxTrigRun d sh fuel).isSome = true →
      restoredTo (runSnap (rxTrigRun d sh fuel)) (runTrace (rxTrigRun d sh fuel))) ∧
    (∀ (d : Dev) (sh : Nat),
      restoredTo (rxFifoRun d sh).1 (rxFifoRun d sh).2.2) ∧
    (∀ (d : Dev) (sh : Nat) (rcInit : Int) (pf : Nat),
      restoredTo (txFifoRun d sh rcInit pf).1 (txFifoRun d sh rcInit pf).2.2) ∧
    (∀ (d : Dev) (fs : Nat) (ti : Int) (pf fuel : Nat),
      (txTrigRun d fs ti pf fuel).isSome = true →
      restoredTo (runSnap (txTrigRun d fs ti pf fuel)) (runTrace (txTrigRun d fs ti pf fuel))) := by
  refine ⟨?_, ?_, ?_, ?_⟩
  · intro d sh fuel hs
    obtain ⟨x, hx⟩ := Option.isSome_iff_exists.mp hs
    rw [hx]
    simp only [runSnap, runTrace]
    simp only [rxTrigRun] at hx
    rcases Option.map_eq_some'.mp hx with ⟨h3, hdr, rfl⟩
    exact restoredTo_restoreRegs _ _ _ _ _
  · intro d sh
    simp only [rxFifoRun]
    exact restoredTo_restoreRegs _ _ _ _ _
  · intro d sh rcInit pf
    simp only [txFifoRun]
    exact restoredTo_restoreRegs _ _ _ _ _
  · intro d fs ti pf fuel hs
    obtain ⟨x, hx⟩ := Option.isSome_iff_exists.mp hs
    rw [hx]
    simp only [runSnap, runTrace]
    simp only [txTrigRun] at hx
    rcases Option.bind_eq_some.mp hx with ⟨h4, e4, hx2⟩
    rcases Option.map_eq_some'.mp hx2 with ⟨h12, e12, rfl⟩
    exact restoredTo_restoreRegs _ _ _ _ _

/-- Witness for C1: concrete terminating runs of all four probes. -/
theorem c1_witness :
    restoredTo (runSnap (rxTrigRun devIir4 0 1)) (runTrace (rxTrigRun devIir4 0 1)) ∧
    restoredTo (rxFifoRun zeroDev 0).1 (rxFifoRun zeroDev 0).2.2 ∧
    restoredTo (txFifoRun zeroDev 0 0 1).1 (txFifoRun zeroDev 0 0 1).2.2 ∧
    restoredTo (runSnap (txTrigRun zeroDev 2 1 1 1)) (runTrace (txTrigRun zeroDev 2 1 1 1)) :=
  ⟨c1_restore_invariant.1 devIir4 0 1 (by decide),
   c1_restore_invariant.2.1 zeroDev 0,
   c1_restore_invariant.2.2.1 zeroDev 0 0 1,
   c1_restore_invariant.2.2.2 zeroDev 2 1 1 1 (by decide)⟩

/-- C2: whenever device resolution fails or the device is busy, every
probe returns the corresponding error with an empty access history: no
register read or write is ever issued. -/
theorem c2_resolution_guard :
    ∀ (rv : Resolve) (e : Errno), resolveErr rv = some e →
      (∀ (d : Dev) (sh fuel : Nat), rxTrigProbe rv d sh fuel = some (PRes.err e, [])) ∧
      (∀ (d : Dev) (sh : Nat), rxFifoProbe rv d sh = (PRes.err e, [])) ∧
      (∀ (d : Dev) (sh : Nat) (rc : Int) (pf : Nat),
        txFifoProbe rv d sh rc pf = (PRes.err e, [])) ∧
      (∀ (d : Dev) (fs : Nat) (ti : Int) (pf fuel : Nat),
        txTrigProbe rv d fs ti pf fuel = some (PRes.err e, [])) := by
  intro rv e hrv
  cases rv <;>
    simp_all [resolveErr, rxTrigProbe, rxFifoProbe, txFifoProbe, txTrigProbe]

/-- Witness for C2: the busy resolution outcome on each probe. -/
theorem c2_witness :
    rxTrigProbe Resolve.busy zeroDev 0 0 = some (PRes.err Errno.ebusy, []) ∧
    rxFifoProbe Resolve.busy zeroDev 0 = (PRes.err Errno.ebusy, []) ∧
    txFifoProbe Resolve.busy zeroDev 0 0 0 = (PRes.err Errno.ebusy, []) ∧
    txTrigProbe Resolve.busy zeroDev 0 0 0 0 = some (PRes.err Errno.ebusy, []) := by
  obtain ⟨a, b, c, d⟩ := c2_resolution_guard Resolve.busy Errno.ebusy rfl
  exact ⟨a zeroDev 0 0, b zeroDev 0, c zeroDev 0 0 0, d zeroDev 0 0 0 0⟩

/-- C9 (code bug): with a pre-probe FCR shadow of 0, the RX trigger
probe's loopback-entry FCR write is the two clear bits only; the
FIFO-enable bit stays clear, because the source ORs the clear bits into
the old FCR instead of forcing the enable bit.  The FIFO size probes, by
contrast, do write the enable bit. -/
theorem c9_rx_trig_fcr_not_enabled :
    fcrWrites (rxTrigSetup zeroDev 0).2 =
      [UART_FCR_CLEAR_RCVR ||| UART_FCR_CLEAR_XMIT] ∧
    (UART_FCR_CLEAR_RCVR ||| UART_FCR_CLEAR_XMIT) &&& UART_FCR_ENABLE_FIFO = 0 ∧
    fcrWrites (fifoSetup zeroDev 0).2 =
      [UART_FCR_ENABLE_FIFO ||| UART_FCR_CLEAR_RCVR ||| UART_FCR_CLEAR_XMIT] := by
  refine ⟨?_, ?_, ?_⟩ <;> decide

/-! ### IER access tracking for the RX trigger probe -/

/-- The restore epilogue never touches the interrupt enable register. -/
theorem ierEvs_restoreRegs (h : History) (a b c e : Nat) :
    ierEvs (restoreRegs h a b c e) = ierEvs h := by
  simp [restoreRegs, serialOut, ierEvs]

/-- The RX trigger measurement loop never touches the interrupt enable
register. -/
theorem ierEvs_rxTrigLoopAux (d : Dev) :
    ∀ (n t : Nat) (h : History), ierEvs (rxTrigLoopAux d n t h).2 = ierEvs h := by
  intro n
  induction n with
  | zero => intro t h; rfl
  | succ n ih =>
    intro t h
    simp only [rxTrigLoopAux]
    split
    · simp [ierEvs, serialIn, serialOut]
    · rw [ih]
      simp [ierEvs, serialIn, serialOut]

/-- The drain loop never touches the interrupt enable register. -/
theorem ierEvs_drainRx (d : Dev) :
    ∀ (n : Nat) (h h' : History), drainRx d n h = some h' → ierEvs h' = ierEvs h := by
  intro n
  induction n with
  | zero => intro h h' hx; simp [drainRx] at hx
  | succ n ih =>
    intro h h' hx
    simp only [drainRx] at hx
    split at hx
    · rw [ih _ _ hx]
      simp [ierEvs, serialIn, serialOut]
    · injection hx with hx'
      subst hx'
      simp [ierEvs, serialIn, serialOut]

/-- A write to the interrupt enable register is kept by the IER filter. -/
theorem ierEvs_cons_wr (v : Nat) (t : History) :
    ierEvs (Ev.wr Reg.ier v :: t) = Ev.wr Reg.ier v :: ierEvs t := by
  simp [ierEvs]

/-- The RX trigger setup's only IER access is the single write of the
receive-data-interrupt enable bit. -/
theorem ierEvs_rxTrigSetup (d : Dev) (sh : Nat) :
    ierEvs (rxTrigSetup d sh).2 = [Ev.wr Reg.ier UART_IER_RDI] := by
  simp [rxTrigSetup, serialIn, serialOut, ierEvs]

/-- C10: on every terminating run of the RX trigger probe, the complete
list of interrupt-enable-register accesses is exactly two writes — the
receive-data-interrupt enable bit at entry and zero after the measurement
loop — and no read: the pre-probe IER value is never snapshotted or
restored, so the register is left at zero. -/
theorem c10_rx_trig_ier_left_zero :
    ∀ (d : Dev) (sh fuel : Nat), (rxTrigRun d sh fuel).isSome = true →
      ierEvs (runTrace (rxTrigRun d sh fuel)) =
        [Ev.wr Reg.ier 0x00, Ev.wr Reg.ier UART_IER_RDI] := by
  intro d sh fuel hs
  obtain ⟨x, hx⟩ := Option.isSome_iff_exists.mp hs
  rw [hx]
  simp only [runTrace]
  simp only [rxTrigRun] at hx
  rcases Option.map_eq_some'.mp hx with ⟨h3, hdr, rfl⟩
  rw [ierEvs_restoreRegs, ierEvs_drainRx d fuel _ _ hdr]
  simp only [serialOut]
  rw [ierEvs_cons_wr, ierEvs_rxTrigLoopAux, ierEvs_rxTrigSetup]

/-- Witness for C10: a concrete terminating RX trigger run. -/
theorem c10_witness :
    ierEvs (runTrace (rxTrigRun devIir4 0 1)) =
      [Ev.wr Reg.ier 0x00, Ev.wr Reg.ier UART_IER_RDI] :=
  c10_rx_trig_ier_left_zero devIir4 0 1 (by decide)

set_option maxRecDepth 40000 in
/-- C5 (code bug): the C local `rx_count` of `tx_fifo_size_read` is never
initialised, and the returned count starts from whatever value it held.
On a loopback mock echoing exactly three bytes, the probe reports 10 when
the indeterminate initial value is 7, and reports 3 only when that value
happens to be 0. -/
theorem c5_uninitialised_rx_count :
    (txFifoRun echoDev3 0 7 10).2.1 = PRes.num 10 ∧
    (txFifoRun echoDev3 0 0 10).2.1 = PRes.num 3 := by
  constructor <;> decide

/-- C7 (code bug): the C local `trig` of `tx_trig_probe_read` is never
initialised, and when the 1.5 s deadline elapses without the THR-empty
condition (zero bytes counted) the code tests that indeterminate value:
with garbage 5 the probe reports the integer 5 instead of the
loopback-failure sentinel, which it reports only when the garbage
happens to be 0. -/
theorem c7_uninitialised_trig :
    runResO (txTrigRun zeroDev 4 5 3 1) = some (PRes.num 5) ∧
    runResO (txTrigRun zeroDev 4 0 3 1) = some PRes.txLoopbackFail := by
  constructor <;> decide

/-! ### Drain-loop termination analysis -/

/-- On a device whose LSR permanently asserts data-ready, the drain loop
never exits, whatever the fuel. -/
theorem drainRx_stuckDR : ∀ (f : Nat) (h : History), drainRx stuckDRDev f h = none := by
  intro f
  induction f with
  | zero => intro h; rfl
  | succ f ih =>
    intro h
    simp only [drainRx, serialIn, stuckDRDev]
    rw [if_pos (by decide)]
    exact ih _

/-- A terminating drain run is stable under extra fuel. -/
theorem drainRx_mono (d : Dev) :
    ∀ (f : Nat) (h h' : History), drainRx d f h = some h' →
      ∀ g, f ≤ g → drainRx d g h = some h' := by
  intro f
  induction f with
  | zero => intro h h' hx; simp [drainRx] at hx
  | succ f ih =>
    intro h h' hx g hg
    obtain ⟨g', rfl⟩ : ∃ g', g = g' + 1 := ⟨g - 1, by omega⟩
    simp only [drainRx] at hx ⊢
    split at hx
    · next hc =>
      rw [if_pos hc]
      exact ih _ _ hx _ (by omega)
    · next hc =>
      rw [if_neg hc]
      exact hx

/-- The RX trigger probe never returns on the stuck-data-ready device: its
drain loop has neither a byte-count bound nor a deadline. -/
def rxTrigDivergesOnStuckDR : Prop :=
  ∀ fuel : Nat, rxTrigRun stuckDRDev 0 fuel = none

/-- C8 counterexample: a handle whose line-status register never clears
the data-ready bit makes the RX trigger probe's drain loop run forever,
so the probe never returns, for every amount of fuel. -/
theorem c8_counterexample : rxTrigDivergesOnStuckDR := by
  intro fuel
  simp only [rxTrigRun]
  rw [drainRx_stuckDR]
  rfl

/-- C8 amended: the transmit/measure loops are all bounded or
deadline-bounded, and the probes containing unbounded RX drain loops (RX
trigger and TX trigger) do terminate on every handle whose data-ready
bit clears within a uniform bound during draining. -/
theorem c8_amended_termination :
    (∀ (d : Dev) (D : Nat), (∀ h, (drainRx d D h).isSome = true) →
      ∀ (sh f : Nat), D ≤ f → (rxTrigRun d sh f).isSome = true) ∧
    (∀ (d : Dev) (D : Nat), (∀ h, (drainRx d D h).isSome = true) →
      ∀ (fs : Nat) (ti : Int) (pf f : Nat), D ≤ f →
        (txTrigRun d fs ti pf f).isSome = true) := by
  constructor
  · intro d D hD sh f hf
    simp only [rxTrigRun]
    obtain ⟨h3, e3⟩ := Option.isSome_iff_exists.mp (hD _)
    rw [drainRx_mono d D _ _ e3 f hf]
    rfl
  · intro d D hD fs ti pf f hf
    simp only [txTrigRun]
    obtain ⟨h4, e4⟩ := Option.isSome_iff_exists.mp (hD _)
    rw [drainRx_mono d D _ _ e4 f hf]
    simp only [Option.some_bind]
    obtain ⟨h12, e12⟩ := Option.isSome_iff_exists.mp (hD _)
    rw [drainRx_mono d D _ _ e12 f hf]
    rfl

/-- Witness for C8 amended: the all-zero device drains in one step. -/
theorem c8_witness :
    (rxTrigRun zeroDev 0 1).isSome = true ∧
    (txTrigRun zeroDev 2 1 1 1).isSome = true :=
  ⟨c8_amended_termination.1 zeroDev 1
      (fun h => by simp [drainRx, serialIn, zeroDev, drCond]) 0 1 le_rfl,
   c8_amended_termination.2 zeroDev 1
      (fun h => by simp [drainRx, serialIn, zeroDev, drCond]) 2 1 1 1 le_rfl⟩


/-! ### Event-count bookkeeping -/

/-- Reads never change the transmit count. -/
theorem txCount_cons_rd (r : Reg) (t : History) :
    txCount (Ev.rd r :: t) = txCount t := by
  simp [txCount, List.countP_cons]

/-- A transmit write increments the transmit count. -/
theorem txCount_cons_wr_tx (v : Nat) (t : History) :
    txCount (Ev.wr Reg.tx v :: t) = txCount t + 1 := by
  simp [txCount, List.countP_cons]

/-- Writes to other registers never change the transmit count. -/
theorem txCount_cons_wr_ne (r : Reg) (v : Nat) (t : History) (hr : r ≠ Reg.tx) :
    txCount (Ev.wr r v :: t) = txCount t := by
  cases r <;> first
    | exact absurd rfl hr
    | simp [txCount, List.countP_cons]

/-- Writes never change the receive-read count. -/
theorem rxReads_cons_wr (r : Reg) (v : Nat) (t : History) :
    rxReads (Ev.wr r v :: t) = rxReads t := by
  simp [rxReads, List.countP_cons]

/-- A receive-buffer read increments the receive-read count. -/
theorem rxReads_cons_rd_rx (t : History) :
    rxReads (Ev.rd Reg.rx :: t) = rxReads t + 1 := by
  simp [rxReads, List.countP_cons]

/-- Reads of other registers never change the receive-read count. -/
theorem rxReads_cons_rd_ne (r : Reg) (t : History) (hr : r ≠ Reg.rx) :
    rxReads (Ev.rd r :: t) = rxReads t := by
  cases r <;> first
    | exact absurd rfl hr
    | simp [rxReads, List.countP_cons]

/-- The drain loop performs no transmit writes. -/
theorem txCount_drainRx (d : Dev) :
    ∀ (n : Nat) (h h' : History), drainRx d n h = some h' → txCount h' = txCount h := by
  intro n
  induction n with
  | zero => intro h h' hx; simp [drainRx] at hx
  | succ n ih =>
    intro h h' hx
    simp only [drainRx, serialIn] at hx
    split at hx
    · rw [ih _ _ hx, txCount_cons_rd, txCount_cons_rd]
    · injection hx with hx'
      subst hx'
      rw [txCount_cons_rd]

/-- The RX trigger setup transmits nothing. -/
theorem txCount_rxTrigSetup (d : Dev) (sh : Nat) :
    txCount (rxTrigSetup d sh).2 = 0 := by
  simp [rxTrigSetup, serialIn, serialOut, txCount, List.countP_cons]

/-- The FIFO size setup transmits nothing. -/
theorem txCount_fifoSetup (d : Dev) (sh : Nat) :
    txCount (fifoSetup d sh).2 = 0 := by
  simp [fifoSetup, serialIn, serialOut, txCount, List.countP_cons]

/-- The restore epilogue transmits nothing. -/
theorem txCount_restoreRegs (h : History) (a b c e : Nat) :
    txCount (restoreRegs h a b c e) = txCount h := by
  simp only [restoreRegs, serialOut]
  rw [txCount_cons_wr_ne _ _ _ (by decide), txCount_cons_wr_ne _ _ _ (by decide),
    txCount_cons_wr_ne _ _ _ (by decide), txCount_cons_wr_ne _ _ _ (by decide),
    txCount_cons_wr_ne _ _ _ (by decide), txCount_cons_wr_ne _ _ _ (by decide)]

/-! ### RX trigger measurement-loop analysis -/

/-- On a device reporting receive-data-available exactly at transmit count
`K`, the measurement loop stops with `trig = K`, having transmitted
exactly `K` bytes. -/
theorem rxTrigLoopAux_hits (d : Dev) (K : Nat)
    (Hiir : ∀ h, rdaCond (d.readv h Reg.iir % 256) ↔ txCount h = K) :
    ∀ (n t : Nat) (h : History), t + n = 256 → 1 ≤ t → t ≤ K → K ≤ 255 →
      txCount h = t - 1 →
      (rxTrigLoopAux d n t h).1 = K ∧ txCount (rxTrigLoopAux d n t h).2 = K := by
  intro n
  induction n with
  | zero => intro t h h256 h1 htK hK255 htx; omega
  | succ n ih =>
    intro t h h256 h1 htK hK255 htx
    have htx1 : txCount (Ev.wr Reg.tx 0x55 :: h) = t := by
      rw [txCount_cons_wr_tx, htx]
      omega
    simp only [rxTrigLoopAux, serialIn, serialOut]
    have hcond := Hiir (Ev.wr Reg.tx 0x55 :: h)
    rw [htx1] at hcond
    by_cases hc : t = K
    · rw [if_pos (hcond.mpr hc)]
      subst hc
      exact ⟨rfl, by rw [txCount_cons_rd, htx1]⟩
    · rw [if_neg (fun hx => hc (hcond.mp hx))]
      exact ih (t + 1) (Ev.rd Reg.iir :: Ev.wr Reg.tx 0x55 :: h)
        (by omega) (by omega) (by omega) hK255
        (by rw [txCount_cons_rd, htx1]; omega)

/-- On a device never reporting receive-data-available, the measurement
loop runs to completion, adding one transmitted byte per iteration. -/
theorem rxTrigLoopAux_never (d : Dev)
    (Hiir : ∀ h, ¬ rdaCond (d.readv h Reg.iir % 256)) :
    ∀ (n t : Nat) (h : History),
      (rxTrigLoopAux d n t h).1 = t + n ∧
      txCount (rxTrigLoopAux d n t h).2 = txCount h + n := by
  intro n
  induction n with
  | zero => intro t h; exact ⟨rfl, rfl⟩
  | succ n ih =>
    intro t h
    simp only [rxTrigLoopAux, serialIn, serialOut]
    rw [if_neg (Hiir _)]
    obtain ⟨ha, hb⟩ := ih (t + 1) (Ev.rd Reg.iir :: Ev.wr Reg.tx 0x55 :: h)
    refine ⟨by rw [ha]; omega, ?_⟩
    rw [hb, txCount_cons_rd, txCount_cons_wr_tx]
    omega

/-- On a device with permanently asserted data-ready, the drain loop never
exits. -/
theorem drainRx_none_of_lsr_one (d : Dev) (hlsr : ∀ h, d.readv h Reg.lsr = 1) :
    ∀ (f : Nat) (h : History), drainRx d f h = none := by
  intro f
  induction f with
  | zero => intro h; rfl
  | succ f ih =>
    intro h
    simp only [drainRx, serialIn, hlsr]
    rw [if_pos (by decide)]
    exact ih _

/-- The RX trigger probe never returns on the device that reports
receive-data-available exactly at one transmitted byte but keeps
data-ready asserted forever. -/
def rxTrigDivergesOnCexC3 : Prop :=
  ∀ fuel : Nat, rxTrigRun cexC3Dev 0 fuel = none

/-- The counterexample device satisfies the claim's hypothesis with
`K = 1`. -/
def rdaExactlyAtOne : Prop :=
  ∀ h, rdaCond (cexC3Dev.readv h Reg.iir % 256) ↔ txCount h = 1

/-- C3 counterexample: a handle whose IIR reports receive-data-available
exactly when one byte has been transmitted (K = 1) but whose data-ready
bit never clears; the probe does not return 1 — it never returns at all,
because the unbounded drain loop after the measurement loop runs
forever. -/
theorem c3_counterexample : rdaExactlyAtOne ∧ rxTrigDivergesOnCexC3 := by
  constructor
  · intro h
    by_cases hc : txCount h = 1
    · have hv : cexC3Dev.readv h Reg.iir = 4 := by simp [cexC3Dev, hc]
      rw [hv]
      exact iff_of_true (by decide) hc
    · have hv : cexC3Dev.readv h Reg.iir = 0 := by simp [cexC3Dev, hc]
      rw [hv]
      exact iff_of_false (by decide) hc
  · intro fuel
    simp only [rxTrigRun]
    rw [drainRx_none_of_lsr_one cexC3Dev (fun h => rfl)]
    rfl

/-- C3 amended: on every handle whose IIR reports receive-data-available
exactly at transmit count K (1 ≤ K ≤ 255) and whose data-ready bit clears
within a uniform drain bound, the probe returns K; on every handle never
reporting the condition (with the same drain proviso), the probe returns
the no-trigger-detected failure after exactly 255 transmit attempts. -/
theorem c3_amended_rx_trigger :
    (∀ (d : Dev) (sh K D : Nat),
      (∀ h, rdaCond (d.readv h Reg.iir % 256) ↔ txCount h = K) →
      (∀ h, (drainRx d D h).isSome = true) →
      1 ≤ K → K ≤ 255 →
      ∀ f, D ≤ f → runResO (rxTrigRun d sh f) = some (PRes.num K)) ∧
    (∀ (d : Dev) (sh D : Nat),
      (∀ h, ¬ rdaCond (d.readv h Reg.iir % 256)) →
      (∀ h, (drainRx d D h).isSome = true) →
      ∀ f, D ≤ f →
        runResO (rxTrigRun d sh f) = some PRes.rxTrigFail ∧
        txCount (runTrace (rxTrigRun d sh f)) = 255) := by
  constructor
  · intro d sh K D Hiir hD h1K hK255 f hf
    have hset := txCount_rxTrigSetup d sh
    have hloop := rxTrigLoopAux_hits d K Hiir 255 1 (rxTrigSetup d sh).2
      (by omega) le_rfl h1K hK255 (by rw [hset])
    simp only [runResO, rxTrigRun]
    obtain ⟨h3, e3⟩ := Option.isSome_iff_exists.mp (hD _)
    rw [drainRx_mono d D _ _ e3 f hf]
    simp only [Option.map_some']
    rw [hloop.1, if_neg (by omega)]
  · intro d sh D Hiir hD f hf
    have hset := txCount_rxTrigSetup d sh
    obtain ⟨hl1, hl2⟩ := rxTrigLoopAux_never d Hiir 255 1 (rxTrigSetup d sh).2
    simp only [runResO, runTrace, rxTrigRun]
    obtain ⟨h3, e3⟩ := Option.isSome_iff_exists.mp (hD _)
    have em := drainRx_mono d D _ _ e3 f hf
    rw [em]
    simp only [Option.map_some']
    constructor
    · rw [hl1, if_pos (by omega)]
    · rw [txCount_restoreRegs, txCount_drainRx d f _ _ em]
      simp only [serialOut]
      rw [txCount_cons_wr_ne _ _ _ (by decide), hl2, hset]

/-- Witness for C3 amended: a handle triggering exactly at two transmitted
bytes, drained in one step, yields result 2; the all-zero handle never
triggers and yields the failure result after 255 transmissions. -/
theorem c3_witness :
    runResO (rxTrigRun witC3Dev 0 1) = some (PRes.num 2) ∧
    (runResO (rxTrigRun zeroDev 0 1) = some PRes.rxTrigFail ∧
      txCount (runTrace (rxTrigRun zeroDev 0 1)) = 255) :=
  ⟨(c3_amended_rx_trigger.1 witC3Dev 0 2 1
    (fun h => by
      by_cases hc : txCount h = 2
      · have hv : witC3Dev.readv h Reg.iir = 4 := by simp [witC3Dev, hc]
        rw [hv]
        exact iff_of_true (by decide) hc
      · have hv : witC3Dev.readv h Reg.iir = 0 := by simp [witC3Dev, hc]
        rw [hv]
        exact iff_of_false (by decide) hc)
    (fun h => by simp [drainRx, serialIn, witC3Dev, drCond])
    (by omega) (by omega)) 1 le_rfl,
   (c3_amended_rx_trigger.2 zeroDev 0 1
    (fun h => by
      have hv : zeroDev.readv h Reg.iir = 0 := rfl
      rw [hv]
      decide)
    (fun h => by simp [drainRx, serialIn, zeroDev, drCond])) 1 le_rfl⟩

/-! ### RX FIFO size loop analysis -/

/-- On a device whose overrun bit asserts from transmit count `N` on, the
overrun-hunt loop stops recording `count_tx = N - 1`: the byte count
recorded is one less than the number of bytes transmitted when overrun is
first observed. -/
theorem rxFifoLoopAux_hits (d : Dev) (N : Nat)
    (Hoe : ∀ h, oeCond (d.readv h Reg.lsr % 256) ↔ N ≤ txCount h) :
    ∀ (n c : Nat) (h : History), txCount h = c → c < N → N ≤ c + n →
      (rxFifoLoopAux d n c h).1 = N - 1 := by
  intro n
  induction n with
  | zero => intro c h htx hcN hNcn; omega
  | succ n ih =>
    intro c h htx hcN hNcn
    have htx1 : txCount (Ev.wr Reg.tx 0xff :: h) = c + 1 := by
      rw [txCount_cons_wr_tx, htx]
    simp only [rxFifoLoopAux, serialIn, serialOut]
    have hcond := Hoe (Ev.wr Reg.tx 0xff :: h)
    rw [htx1] at hcond
    by_cases hc : N ≤ c + 1
    · rw [if_pos (hcond.mpr hc)]
      show c = N - 1
      omega
    · rw [if_neg (fun hx => hc (hcond.mp hx))]
      exact ih (c + 1) _ (by rw [txCount_cons_rd, htx1]) (by omega) (by omega)

/-- If the overrun threshold lies beyond the reachable transmit count, the
loop completes and `rx_fifo_size` keeps its initial value 0. -/
theorem rxFifoLoopAux_miss (d : Dev) (N : Nat)
    (Hoe : ∀ h, oeCond (d.readv h Reg.lsr % 256) ↔ N ≤ txCount h) :
    ∀ (n c : Nat) (h : History), txCount h = c → c + n < N →
      (rxFifoLoopAux d n c h).1 = 0 := by
  intro n
  induction n with
  | zero => intro c h htx hlt; rfl
  | succ n ih =>
    intro c h htx hlt
    have htx1 : txCount (Ev.wr Reg.tx 0xff :: h) = c + 1 := by
      rw [txCount_cons_wr_tx, htx]
    simp only [rxFifoLoopAux, serialIn, serialOut]
    have hcond := Hoe (Ev.wr Reg.tx 0xff :: h)
    rw [htx1] at hcond
    rw [if_neg (fun hx => by have := hcond.mp hx; omega)]
    exact ih (c + 1) _ (by rw [txCount_cons_rd, htx1]) (by omega)

/-- The counterexample device asserts overrun exactly from three
transmitted bytes on. -/
def oeExactlyAtThree : Prop :=
  ∀ h, oeCond (cexC4Dev.readv h Reg.lsr % 256) ↔ 3 ≤ txCount h

/-- C4 counterexample: on a handle whose LSR first asserts overrun exactly
after N = 3 bytes have been transmitted, the probe returns 2, not 3: the
code records `count_tx` before the increment, one less than the number of
bytes sent when overrun is first seen. -/
theorem c4_counterexample :
    oeExactlyAtThree ∧ (rxFifoRun cexC4Dev 0).2.1 = PRes.num 2 := by
  constructor
  · intro h
    by_cases hc : 3 ≤ txCount h
    · have hv : cexC4Dev.readv h Reg.lsr = 2 := by simp [cexC4Dev, hc]
      rw [hv]
      exact iff_of_true (by decide) hc
    · have hv : cexC4Dev.readv h Reg.lsr = 0 := by simp [cexC4Dev, hc]
      rw [hv]
      exact iff_of_false (by decide) hc
  · decide

/-- C4 amended: on every handle whose LSR asserts overrun exactly from N
transmitted bytes on, the probe returns N - 1 when 2 ≤ N ≤ 512; when
N = 1 the recorded 0 collides with the loop's initial value and the probe
returns the overflow-not-detected sentinel; and when overrun never
asserts within the 512-byte bound it returns that sentinel. -/
theorem c4_amended_rx_fifo :
    ∀ (d : Dev) (sh N : Nat),
      (∀ h, oeCond (d.readv h Reg.lsr % 256) ↔ N ≤ txCount h) →
      (2 ≤ N → N ≤ FIFO_SIZE_MAX → (rxFifoRun d sh).2.1 = PRes.num (N - 1)) ∧
      (N = 1 → (rxFifoRun d sh).2.1 = PRes.overflowNotDetected) ∧
      (FIFO_SIZE_MAX < N → (rxFifoRun d sh).2.1 = PRes.overflowNotDetected) := by
  intro d sh N Hoe
  have hset := txCount_fifoSetup d sh
  refine ⟨?_, ?_, ?_⟩
  · intro h2N hN512
    have hl := rxFifoLoopAux_hits d N Hoe FIFO_SIZE_MAX 0 (fifoSetup d sh).2
      hset (by omega) (by omega)
    simp only [rxFifoRun]
    rw [hl, if_neg (by omega)]
    have hcast : ((N - 1 : Nat) : Int) = (N : Int) - 1 := by omega
    rw [hcast]
  · intro hN1
    have h512 : (1 : Nat) ≤ FIFO_SIZE_MAX := by norm_num [FIFO_SIZE_MAX]
    have hl := rxFifoLoopAux_hits d N Hoe FIFO_SIZE_MAX 0 (fifoSetup d sh).2
      hset (by omega) (by omega)
    simp only [rxFifoRun]
    rw [hl, if_pos (by omega)]
  · intro hN
    have hl := rxFifoLoopAux_miss d N Hoe FIFO_SIZE_MAX 0 (fifoSetup d sh).2
      hset (by omega)
    simp only [rxFifoRun]
    rw [hl, if_pos rfl]

/-- Witness for C4 amended: the threshold-3 device yields result 2. -/
theorem c4_witness : (rxFifoRun cexC4Dev 0).2.1 = PRes.num 2 :=
  ((c4_amended_rx_fifo cexC4Dev 0 3
    (fun h => by
      by_cases hc : 3 ≤ txCount h
      · have hv : cexC4Dev.readv h Reg.lsr = 2 := by simp [cexC4Dev, hc]
        rw [hv]
        exact iff_of_true (by decide) hc
      · have hv : cexC4Dev.readv h Reg.lsr = 0 := by simp [cexC4Dev, hc]
        rw [hv]
        exact iff_of_false (by decide) hc)).1
    (by omega) (by norm_num [FIFO_SIZE_MAX]))

/-! ### TX trigger probe analysis -/

/-- The TX trigger opening phase transmits nothing. -/
theorem txCount_txTrigPre (d : Dev) : txCount (txTrigPre d).h = 0 := by
  simp [txTrigPre, serialIn, serialOut, txCount, List.countP_cons]

/-- The TX trigger opening phase reads no receive data. -/
theorem rxReads_txTrigPre (d : Dev) : rxReads (txTrigPre d).h = 0 := by
  simp [txTrigPre, serialIn, serialOut, rxReads, List.countP_cons]

/-- The TX trigger middle phase transmits nothing. -/
theorem txCount_txTrigMid (d : Dev) (h : History) :
    txCount (txTrigMid d h).2 = txCount h := by
  simp [txTrigMid, serialIn, serialOut, txCount, List.countP_cons]

/-- The TX trigger middle phase reads no receive data. -/
theorem rxReads_txTrigMid (d : Dev) (h : History) :
    rxReads (txTrigMid d h).2 = rxReads h := by
  simp [txTrigMid, serialIn, serialOut, rxReads, List.countP_cons]

/-- The fill loop performs exactly its count of transmit writes. -/
theorem txCount_txTrigFill :
    ∀ (n : Nat) (h : History), txCount (txTrigFill n h) = txCount h + n := by
  intro n
  induction n with
  | zero => intro h; rfl
  | succ n ih =>
    intro h
    simp only [txTrigFill, serialOut]
    rw [ih, txCount_cons_wr_tx]
    omega

/-- The fill loop reads no receive data. -/
theorem rxReads_txTrigFill :
    ∀ (n : Nat) (h : History), rxReads (txTrigFill n h) = rxReads h := by
  intro n
  induction n with
  | zero => intro h; rfl
  | succ n ih =>
    intro h
    simp only [txTrigFill, serialOut]
    rw [ih, rxReads_cons_wr]

/-- The THR-empty poll loop performs no transmit writes. -/
theorem txCount_txTrigPollAux (d : Dev) :
    ∀ (n : Nat) (rc : Int) (h : History),
      txCount (txTrigPollAux d n rc h).2 = txCount h := by
  intro n
  induction n with
  | zero => intro rc h; rfl
  | succ n ih =>
    intro rc h
    simp only [txTrigPollAux, serialIn]
    by_cases hdr : drCond (d.readv h Reg.lsr % 256)
    · rw [if_pos hdr]
      by_cases hth :
          thriCond (d.readv (Ev.rd Reg.rx :: Ev.rd Reg.lsr :: h) Reg.iir % 256)
      · rw [if_pos hth, txCount_cons_rd, txCount_cons_rd, txCount_cons_rd]
      · rw [if_neg hth, ih, txCount_cons_rd, txCount_cons_rd, txCount_cons_rd]
    · rw [if_neg hdr]
      by_cases hth : thriCond (d.readv (Ev.rd Reg.lsr :: h) Reg.iir % 256)
      · rw [if_pos hth, txCount_cons_rd, txCount_cons_rd]
      · rw [if_neg hth, ih, txCount_cons_rd, txCount_cons_rd]

/-- A drain call on a handle with data-ready deasserted exits immediately,
recording one line-status read. -/
theorem drainRx_exits_now (d : Dev) (f : Nat) (h : History) (hf : 1 ≤ f)
    (hnd : ¬ drCond (d.readv h Reg.lsr % 256)) :
    drainRx d f h = some (Ev.rd Reg.lsr :: h) := by
  obtain ⟨f', rfl⟩ : ∃ f', f = f' + 1 := ⟨f - 1, by omega⟩
  simp only [drainRx, serialIn]
  rw [if_neg hnd]

/-- On a handle whose data-ready bit tracks undrained loopback bytes, the
drain loop terminates once the remaining bytes fit in the fuel. -/
theorem drainRx_isSome_of_counts (d : Dev) (c : Nat)
    (Hlsr : ∀ h, drCond (d.readv h Reg.lsr % 256) ↔ rxReads h < txCount h) :
    ∀ (n k : Nat) (h : History), rxReads h = k → txCount h = c → k ≤ c →
      c - k < n → (drainRx d n h).isSome = true := by
  intro n
  induction n with
  | zero => intro k h hrx htx hkc hlt; omega
  | succ n ih =>
    intro k h hrx htx hkc hlt
    simp only [drainRx, serialIn]
    by_cases hdr : drCond (d.readv h Reg.lsr % 256)
    · rw [if_pos hdr]
      have hklt : k < c := by
        rw [← hrx, ← htx]
        exact (Hlsr h).mp hdr
      exact ih (k + 1) _
        (by rw [rxReads_cons_rd_rx, rxReads_cons_rd_ne _ _ (by decide), hrx])
        (by rw [txCount_cons_rd, txCount_cons_rd, htx])
        (by omega) (by omega)
    · rw [if_neg hdr]
      rfl

/-- On a handle whose data-ready bit tracks undrained bytes and whose
THR-empty condition asserts exactly at drain count `T`, the poll loop
stops with `rx_count = T` once it may run at least `T` iterations. -/
theorem txTrigPollAux_hits (d : Dev) (T c : Nat)
    (Hlsr : ∀ h, drCond (d.readv h Reg.lsr % 256) ↔ rxReads h < txCount h)
    (Hiir : ∀ h, thriCond (d.readv h Reg.iir % 256) ↔ rxReads h = T) :
    ∀ (n rc : Nat) (h : History), rxReads h = rc → txCount h = c → rc < T →
      T ≤ c → T - rc ≤ n →
      (txTrigPollAux d n (rc : Int) h).1 = some (T : Int) ∧
      rxReads (txTrigPollAux d n (rc : Int) h).2 = T ∧
      txCount (txTrigPollAux d n (rc : Int) h).2 = c := by
  intro n
  induction n with
  | zero => intro rc h hrx htx hrcT hTc hfuel; omega
  | succ n ih =>
    intro rc h hrx htx hrcT hTc hfuel
    have hdr : drCond (d.readv h Reg.lsr % 256) := by
      rw [Hlsr, hrx, htx]
      omega
    simp only [txTrigPollAux, serialIn]
    rw [if_pos hdr]
    have hrx1 : rxReads (Ev.rd Reg.rx :: Ev.rd Reg.lsr :: h) = rc + 1 := by
      rw [rxReads_cons_rd_rx, rxReads_cons_rd_ne _ _ (by decide), hrx]
    have htx1 : txCount (Ev.rd Reg.rx :: Ev.rd Reg.lsr :: h) = c := by
      rw [txCount_cons_rd, txCount_cons_rd, htx]
    have hcond := Hiir (Ev.rd Reg.rx :: Ev.rd Reg.lsr :: h)
    rw [hrx1] at hcond
    by_cases hc : rc + 1 = T
    · rw [if_pos (hcond.mpr hc)]
      refine ⟨?_, ?_, ?_⟩
      · have : ((rc : Int) + 1) = ((T : Nat) : Int) := by omega
        rw [this]
      · rw [rxReads_cons_rd_ne _ _ (by decide), hrx1]
        omega
      · rw [txCount_cons_rd, htx1]
    · rw [if_neg (fun hx => hc (hcond.mp hx))]
      have hcast : ((rc : Int) + 1) = (((rc + 1 : Nat)) : Int) := by omega
      rw [hcast]
      exact ih (rc + 1) _
        (by rw [rxReads_cons_rd_ne _ _ (by decide), hrx1])
        (by rw [txCount_cons_rd, htx1])
        (by omega) hTc (by omega)

/-- The counterexample device asserts THR-empty exactly when no byte has
been drained, and never asserts data-ready. -/
def thriExactlyAtZero : Prop :=
  ∀ h, thriCond (cexC6Dev.readv h Reg.iir % 256) ↔ rxReads h = 0

/-- C6 counterexample: on a handle asserting THR-empty exactly when T = 0
bytes have been drained, the probe does not return 0: `trig = 0` is
reported as the loopback-failure sentinel. -/
theorem c6_counterexample :
    thriExactlyAtZero ∧
    runResO (txTrigRun cexC6Dev 16 99 5 1) = some PRes.txLoopbackFail := by
  constructor
  · intro h
    by_cases hc : rxReads h = 0
    · have hv : cexC6Dev.readv h Reg.iir = 2 := by simp [cexC6Dev, hc]
      rw [hv]
      exact iff_of_true (by decide) hc
    · have hv : cexC6Dev.readv h Reg.iir = 0 := by simp [cexC6Dev, hc]
      rw [hv]
      exact iff_of_false (by decide) hc
  · decide

/-- C6 amended: on every terminating run the fill phase writes at most
`fifosize + 1` transmit bytes (in fact exactly that many); and on every
handle whose data-ready bit tracks undrained loopback bytes and whose
THR-empty condition asserts exactly at drain count T with 1 ≤ T ≤
fifosize + 1 (T = 0 is reported as the loopback-failure sentinel, not 0),
the probe returns T, given a poll budget of at least T iterations and a
drain budget of at least fifosize + 2. -/
theorem c6_tx_trigger_amended :
    (∀ (d : Dev) (fs : Nat) (ti : Int) (pf df : Nat),
      (txTrigRun d fs ti pf df).isSome = true →
      txCount (runTrace (txTrigRun d fs ti pf df)) ≤ fs + 1) ∧
    (∀ (d : Dev) (fs T : Nat) (ti : Int) (pf df : Nat),
      (∀ h, drCond (d.readv h Reg.lsr % 256) ↔ rxReads h < txCount h) →
      (∀ h, thriCond (d.readv h Reg.iir % 256) ↔ rxReads h = T) →
      1 ≤ T → T ≤ fs + 1 → T ≤ pf → fs + 2 ≤ df →
      runResO (txTrigRun d fs ti pf df) = some (PRes.num T)) := by
  constructor
  · intro d fs ti pf df hs
    obtain ⟨x, hx⟩ := Option.isSome_iff_exists.mp hs
    rw [hx]
    simp only [runTrace]
    simp only [txTrigRun] at hx
    rcases Option.bind_eq_some.mp hx with ⟨h4, e4, hx2⟩
    rcases Option.map_eq_some'.mp hx2 with ⟨h12, e12, rfl⟩
    rw [txCount_restoreRegs, txCount_drainRx d df _ _ e12]
    simp only [serialOut]
    rw [txCount_cons_wr_ne _ _ _ (by decide), txCount_txTrigPollAux,
      txCount_txTrigFill, txCount_txTrigMid, txCount_drainRx d df _ _ e4,
      txCount_txTrigPre]
    omega
  · intro d fs T ti pf df Hlsr Hiir hT1 hTfs hTpf hdf
    have hpre_rx := rxReads_txTrigPre d
    have hpre_tx := txCount_txTrigPre d
    have hnodr : ¬ drCond (d.readv (txTrigPre d).h Reg.lsr % 256) := by
      rw [Hlsr, hpre_rx, hpre_tx]
      omega
    have e4 : drainRx d df (txTrigPre d).h =
        some (Ev.rd Reg.lsr :: (txTrigPre d).h) :=
      drainRx_exits_now d df _ (by omega) hnodr
    simp only [runResO, txTrigRun]
    rw [e4]
    simp only [Option.some_bind]
    have h10rx : rxReads (txTrigFill (fs + 1)
        (txTrigMid d (Ev.rd Reg.lsr :: (txTrigPre d).h)).2) = 0 := by
      rw [rxReads_txTrigFill, rxReads_txTrigMid,
        rxReads_cons_rd_ne _ _ (by decide), hpre_rx]
    have h10tx : txCount (txTrigFill (fs + 1)
        (txTrigMid d (Ev.rd Reg.lsr :: (txTrigPre d).h)).2) = fs + 1 := by
      rw [txCount_txTrigFill, txCount_txTrigMid, txCount_cons_rd, hpre_tx]
      omega
    have hpoll := txTrigPollAux_hits d T (fs + 1) Hlsr Hiir pf 0 _
      h10rx h10tx (by omega) (by omega) (by omega)
    simp only [Nat.cast_zero] at hpoll
    simp only [hpoll.1]
    have hpost : (drainRx d df (serialOut
        (txTrigPollAux d pf 0 (txTrigFill (fs + 1)
          (txTrigMid d (Ev.rd Reg.lsr :: (txTrigPre d).h)).2)).2
        Reg.ier (txTrigPre d).ier0)).isSome = true := by
      apply drainRx_isSome_of_counts d (fs + 1) Hlsr df T
      · simp only [serialOut]
        rw [rxReads_cons_wr]
        exact hpoll.2.1
      · simp only [serialOut]
        rw [txCount_cons_wr_ne _ _ _ (by decide)]
        exact hpoll.2.2
      · omega
      · omega
    obtain ⟨h12, e12⟩ := Option.isSome_iff_exists.mp hpost
    rw [e12]
    simp only [Option.map_some']
    rw [if_neg (by omega : ¬ ((T : Int) = 0))]

/-- Witness for C6 amended: the fill cap on a concrete terminating run,
and a well-behaved loopback handle with trigger level 1 and rated FIFO
size 2 yielding result 1. -/
theorem c6_witness :
    txCount (runTrace (txTrigRun zeroDev 2 1 1 1)) ≤ 3 ∧
    runResO (txTrigRun witC6Dev 2 99 1 4) = some (PRes.num 1) :=
  ⟨c6_tx_trigger_amended.1 zeroDev 2 1 1 1 (by decide),
   c6_tx_trigger_amended.2 witC6Dev 2 1 99 1 4
     (fun h => by
       by_cases hc : rxReads h < txCount h
       · have hv : witC6Dev.readv h Reg.lsr = 1 := by simp [witC6Dev, hc]
         rw [hv]
         exact iff_of_true (by decide) hc
       · have hv : witC6Dev.readv h Reg.lsr = 0 := by simp [witC6Dev, hc]
         rw [hv]
         exact iff_of_false (by decide) hc)
     (fun h => by
       by_cases hc : rxReads h = 1
       · have hv : witC6Dev.readv h Reg.iir = 2 := by simp [witC6Dev, hc]
         rw [hv]
         exact iff_of_true (by decide) hc
       · have hv : witC6Dev.readv h Reg.iir = 0 := by simp [witC6Dev, hc]
         rw [hv]
         exact iff_of_false (by decide) hc)
     (by omega) (by omega) (by omega) (by omega)⟩
